import Mathlib

/-!
Verification development for the meal-voting repository: the poll lifecycle
state machine, the positional (Borda-style) tally engine, the factory
registration index, and the browser client glue. The Rust contract sources
are not part of the checked tree, so the contract-side definitions are
modelled from the specification (each such definition says so in its doc
comment); the client-side definitions are embedded from the TypeScript
sources under src/client.
-/

namespace MealVoting

/-- A nomination entry: generated id, submitting identity, free-text label. -/
structure Nomination where
  nominationId : String
  userId : String
  text : String
deriving DecidableEq

/-- One row of the computed results: nomination id, its label, its score. -/
structure ResultEntry where
  nominationId : String
  nominationText : String
  score : Nat
deriving DecidableEq

/-- Modelled from the spec: PollPartitionState of section 3 (the Rust
contract state is not in the checked tree). Mappings are association lists
in insertion order. -/
structure PollState where
  topic : String
  adminIdentity : String
  votesPerVoter : Nat
  participants : List (String × String)
  nominations : List Nomination
  rankings : List (String × List String)
  hasStarted : Bool
  isClosed : Bool
  results : List ResultEntry
deriving DecidableEq

/-- The error kinds of section 7. -/
inductive PollError where
  | validationError
  | stateError
  | authError
  | allocationError
deriving DecidableEq

/-- Zero-indexed rank of a nomination id within a ballot, if present. -/
def rankOf : List String → String → Option Nat
  | [], _ => none
  | x :: xs, nid => if x = nid then some 0 else (rankOf xs nid).map (· + 1)

/-- Modelled from the spec: the contribution of one ballot to one nomination
(section 4.3). Only the first votesPerVoter entries of a ballot count (the
effective length is capped); a nomination at zero-indexed rank r in a ballot
of effective length L contributes L - 1 - r points, an absent one 0. -/
def ballotContribution (votesPerVoter : Nat) (ballot : List String) (nid : String) : Nat :=
  let eff := ballot.take votesPerVoter
  match rankOf eff nid with
  | some r => eff.length - 1 - r
  | none => 0

/-- Initial score table: every nomination id mapped to 0. -/
def emptyScores (noms : List Nomination) : List (String × Nat) :=
  noms.map (fun n => (n.nominationId, 0))

/-- Accumulate one ballot into the running score table. -/
def addBallot (votesPerVoter : Nat) (ballot : List String) (scores : List (String × Nat)) :
    List (String × Nat) :=
  scores.map (fun p => (p.1, p.2 + ballotContribution votesPerVoter ballot p.1))

/-- Association-list lookup in the score table. -/
def lookupScore : List (String × Nat) → String → Option Nat
  | [], _ => none
  | p :: ps, k => if p.1 = k then some p.2 else lookupScore ps k

/-- Modelled from the spec: the tally engine of section 4.3 (the Rust tally
is not in the checked tree). Accumulates every submitted ballot into a score
table seeded with all nominations at 0, then emits one result row per
nomination in insertion order, paired with its label. -/
def tally (noms : List Nomination) (rks : List (String × List String)) (votesPerVoter : Nat) :
    List ResultEntry :=
  let final := rks.foldl (fun sc p => addBallot votesPerVoter p.2 sc) (emptyScores noms)
  noms.map (fun n =>
    { nominationId := n.nominationId, nominationText := n.text,
      score := (lookupScore final n.nominationId).getD 0 })

/-- The operations a poll partition accepts (section 4.2), each carrying the
caller identity explicitly. -/
inductive Op where
  | join (name ident : String)
  | nominate (text ident : String)
  | vote (ballot : List String) (ident : String)
  | startVote (ident : String)
  | closePoll (ident : String)
deriving DecidableEq

/-- Insert or replace the entry for a key in an association list. -/
def upsert {α : Type} : List (String × α) → String → α → List (String × α)
  | [], k, v => [(k, v)]
  | p :: ps, k, v => if p.1 = k then (k, v) :: ps else p :: upsert ps k v

/-- The nomination ids currently registered in a poll. -/
def nominationIds (s : PollState) : List String :=
  s.nominations.map Nomination.nominationId

/-- Modelled from the spec: ballot validation of section 4.2 (length within
the votesPerVoter cap, no duplicate ids, every id references an existing
nomination). -/
def validBallot (s : PollState) (ballot : List String) : Bool :=
  decide (ballot.length ≤ s.votesPerVoter ∧ ballot.Nodup ∧
    ∀ nid ∈ ballot, nid ∈ nominationIds s)

/-- Modelled from the spec: one step of the poll lifecycle state machine
(section 4.2). Returns the next state paired with the reported error, if
any; a rejected operation returns the state unchanged (no operation
partially applies, section 7). Auth is checked before lifecycle state, as
the failure columns of the transition table list them. -/
def apply (op : Op) (s : PollState) : PollState × Option PollError :=
  match op with
  | .join name ident =>
    if s.isClosed then (s, some .stateError)
    else if name.length < 1 ∨ name.length > 25 then (s, some .validationError)
    else ({ s with participants := upsert s.participants ident name }, none)
  | .nominate text ident =>
    if s.hasStarted then (s, some .stateError)
    else if text.length < 1 ∨ text.length > 100 then (s, some .validationError)
    else ({ s with nominations :=
      s.nominations ++ [⟨"nom" ++ toString s.nominations.length, ident, text⟩] }, none)
  | .vote ballot ident =>
    if s.hasStarted = false ∨ s.isClosed then (s, some .stateError)
    else if validBallot s ballot then
      ({ s with rankings := upsert s.rankings ident ballot }, none)
    else (s, some .validationError)
  | .startVote ident =>
    if ident ≠ s.adminIdentity then (s, some .authError)
    else if s.hasStarted then (s, some .stateError)
    else ({ s with hasStarted := true }, none)
  | .closePoll ident =>
    if ident ≠ s.adminIdentity then (s, some .authError)
    else if s.hasStarted = false ∨ s.isClosed then (s, some .stateError)
    else
      ({ s with
          isClosed := true
          results := tally s.nominations s.rankings s.votesPerVoter }, none)

/-- The freshly seeded state of a new poll partition. -/
def initPoll (topic : String) (votesPerVoter : Nat) (creator : String) : PollState :=
  { topic := topic, adminIdentity := creator, votesPerVoter := votesPerVoter,
    participants := [], nominations := [], rankings := [],
    hasStarted := false, isClosed := false, results := [] }

/-- Modelled from the spec: factory createPoll validation (section 4.1; the
Rust factory is not in the checked tree). The bounds, topic length in
[1, 100] and votesPerVoter in [1, 5], match areFieldsValid in
src/client/src/pages/Create.tsx. -/
def createPoll (topic : String) (votesPerVoter : Nat) (creator : String) :
    Except PollError PollState :=
  if topic.length < 1 ∨ topic.length > 100 then .error .validationError
  else if votesPerVoter < 1 ∨ votesPerVoter > 5 then .error .validationError
  else .ok (initPoll topic votesPerVoter creator)

/-- Embedded from src/client/src/pages/Create.tsx (areFieldsValid): the
client enables poll creation only for topic length in [1, 100], votes per
voter in [1, 5] and a display name of length in [1, 25]. -/
def areFieldsValid (pollTopic : String) (maxVotes : Nat) (name : String) : Bool :=
  if pollTopic.length < 1 ∨ pollTopic.length > 100 then false
  else if maxVotes < 1 ∨ maxVotes > 5 then false
  else if name.length < 1 ∨ name.length > 25 then false
  else true

/-- The poll states reachable from a successful createPoll by any sequence
of operations (accepted or rejected). -/
inductive Reachable : PollState → Prop where
  | created (topic : String) (v : Nat) (creator : String) (s : PollState)
      (h : createPoll topic v creator = .ok s) : Reachable s
  | step (s : PollState) (op : Op) (h : Reachable s) : Reachable (apply op s).1

/-- Modelled from the spec: the factory handler for one registration message
(section 4.4), appending the address under the creator unless it is already
present (dedupe by partition address). -/
def registerPoll : List (String × List String) → String → String → List (String × List String)
  | [], creator, addr => [(creator, [addr])]
  | p :: ps, creator, addr =>
    if p.1 = creator then
      (if addr ∈ p.2 then p :: ps else (p.1, p.2 ++ [addr]) :: ps)
    else p :: registerPoll ps creator addr

/-- Association-list lookup in the factory index. -/
def lookupPolls : List (String × List String) → String → Option (List String)
  | [], _ => none
  | p :: ps, k => if p.1 = k then some p.2 else lookupPolls ps k

/-- The factory index after processing a sequence of registration messages
(creator, address) from the empty deployment state. -/
def buildFactory (msgs : List (String × String)) : List (String × List String) :=
  msgs.foldl (fun fs m => registerPoll fs m.1 m.2) []

/-- Modelled from the spec: the createdPolls query (section 4.1), returning
the current list for a creator and the empty sequence for an unknown
identity, never an error — matching getCreatedPolls in
src/client/src/linera-client.ts, which returns an empty array when the
lookup yields nothing. -/
def createdPolls (fs : List (String × List String)) (creator : String) : List String :=
  (lookupPolls fs creator).getD []

/-- Embedded from src/client/src/pages/Create.tsx (handleCreatePoll): the
retry bound of the loop that polls createdPolls for the new poll id. -/
def maxRetries : Nat := 10

/-- Embedded from src/client/src/pages/Create.tsx (handleCreatePoll): the
retry loop body. Attempt i reads responses i (the value getCreatedPolls
returned on that attempt); the first nonempty response yields its last
element and ends the loop; exhausting the fuel leaves the id empty. -/
def pollIdLoop (responses : Nat → List String) : Nat → Nat → String
  | _, 0 => ""
  | i, fuel + 1 =>
    let pools := responses i
    if pools.length > 0 then pools.getLastD "" else pollIdLoop responses (i + 1) fuel

/-- Embedded from src/client/src/pages/Create.tsx (handleCreatePoll): run
the retry loop for maxRetries attempts; when no id was retrieved, fall back
to the current chain id of the client and proceed. -/
def fetchNewPollId (responses : Nat → List String) (currentChainId : String) : String :=
  let newPollId := pollIdLoop responses 0 maxRetries
  if newPollId = "" then currentChainId else newPollId

/-- The explicit failure of section 7 a caller should surface when
registration is not observed within the retry bound. -/
inductive CreateFlowError where
  | consistencyTimeout
deriving DecidableEq

/-- Follows the words of the spec (sections 5 and 7), for comparison with
fetchNewPollId: a caller that exhausts its bounded retries fails explicitly
with a distinct consistency-timeout failure instead of proceeding with
substitute data. -/
def pollIdLoopSpec (responses : Nat → List String) :
    Nat → Nat → Except CreateFlowError String
  | _, 0 => .error .consistencyTimeout
  | i, fuel + 1 =>
    let pools := responses i
    if pools.length > 0 then .ok (pools.getLastD "")
    else pollIdLoopSpec responses (i + 1) fuel

/-- Follows the words of the spec: the whole lookup, failing explicitly on
exhaustion. -/
def fetchNewPollIdSpec (responses : Nat → List String) : Except CreateFlowError String :=
  pollIdLoopSpec responses 0 maxRetries

/-- A GraphQL variable value as the client serialises it. -/
inductive GqlValue where
  | str (s : String)
  | int (n : Nat)
  | strList (l : List String)
deriving DecidableEq

/-- Embedded from src/client/src/linera-client.ts (createPoll): the
variables of the CreatePoll mutation. -/
def createPollVars (topic : String) (votesPerVoter : Nat) (owner : String) :
    List (String × GqlValue) :=
  [("topic", .str topic), ("votesPerVoter", .int votesPerVoter), ("owner", .str owner)]

/-- Embedded from src/client/src/linera-client.ts (join): the variables of
the Join mutation. -/
def joinVars (name owner : String) : List (String × GqlValue) :=
  [("name", .str name), ("owner", .str owner)]

/-- Embedded from src/client/src/linera-client.ts (nominate): the variables
of the Nominate mutation. -/
def nominateVars (text owner : String) : List (String × GqlValue) :=
  [("text", .str text), ("owner", .str owner)]

/-- Embedded from src/client/src/linera-client.ts (vote): the variables of
the Vote mutation. -/
def voteVars (rankings : List String) (owner : String) : List (String × GqlValue) :=
  [("rankings", .strList rankings), ("owner", .str owner)]

/-- Embedded from src/client/src/linera-client.ts (startVote): the variables
of the StartVote mutation. -/
def startVoteVars (owner : String) : List (String × GqlValue) :=
  [("owner", GqlValue.str owner)]

/-- Embedded from src/client/src/linera-client.ts (closePoll): the variables
of the ClosePoll mutation. -/
def closePollVars (owner : String) : List (String × GqlValue) :=
  [("owner", GqlValue.str owner)]

/-- Every per-creator address list held by the factory index is
duplicate-free. -/
def factoryInv (fs : List (String × List String)) : Prop :=
  ∀ p ∈ fs, (p : String × List String).2.Nodup

/-- A concrete freshly created poll, used by the concrete witnesses. -/
def samplePoll : PollState := initPoll "Team Lunch" 3 "admin"

/-- The sample poll after one nomination. -/
def sampleNominated : PollState := (apply (.nominate "Pizza" "admin") samplePoll).1

/-- The sample poll after the admin started voting. -/
def sampleVoting : PollState := (apply (.startVote "admin") sampleNominated).1

/-- The sample poll after the admin closed it. -/
def sampleClosed : PollState := (apply (.closePoll "admin") sampleVoting).1

/-- The three nominations of the end-to-end scenario in
src/unnamed/part_001. -/
def demoNominations : List Nomination :=
  [⟨"nom0", "admin", "Pizza"⟩, ⟨"nom1", "admin", "Sushi"⟩, ⟨"nom2", "admin", "Burgers"⟩]

/-- The single ballot of the end-to-end scenario: Pizza, Sushi, Burgers in
that order. -/
def demoRankings : List (String × List String) := [("admin", ["nom0", "nom1", "nom2"])]

/-- A voting-state poll holding the demo nominations and no ballots. -/
def sampleVotingNoBallots : PollState :=
  { initPoll "Team Lunch" 3 "admin" with
      hasStarted := true
      nominations := demoNominations }

/-- The no-ballot poll after the admin closed it. -/
def sampleClosedNoBallots : PollState :=
  (apply (.closePoll "admin") sampleVotingNoBallots).1

/-- A concrete registration message sequence with a redelivered duplicate. -/
def demoRegistrations : List (String × String) :=
  [("alice", "poll1"), ("alice", "poll1"), ("alice", "poll2")]

end MealVoting

namespace MealVoting

/-- A successful createPoll yields exactly the freshly seeded initial state. -/
theorem createPoll_ok (topic : String) (v : Nat) (creator : String) (s : PollState)
    (h : createPoll topic v creator = .ok s) : s = initPoll topic v creator := by
  unfold createPoll at h
  split at h
  · cases h
  · split at h
    · cases h
    · exact (Except.ok.inj h).symm

/-- Claim C2: for votesPerVoter in [1,5] and topic length in [1,100],
createPoll succeeds and the new partition starts Open with hasStarted and
isClosed both false; outside those bounds createPoll fails with a
ValidationError. -/
theorem createPoll_validation (topic : String) (v : Nat) (creator : String) :
    ((1 ≤ topic.length ∧ topic.length ≤ 100 ∧ 1 ≤ v ∧ v ≤ 5) →
      createPoll topic v creator = .ok (initPoll topic v creator) ∧
      (initPoll topic v creator).hasStarted = false ∧
      (initPoll topic v creator).isClosed = false) ∧
    ((topic.length < 1 ∨ 100 < topic.length ∨ v < 1 ∨ 5 < v) →
      createPoll topic v creator = .error .validationError) := by
  constructor
  · rintro ⟨h1, h2, h3, h4⟩
    refine ⟨?_, rfl, rfl⟩
    unfold createPoll
    rw [if_neg (by omega), if_neg (by omega)]
  · intro h
    unfold createPoll
    split
    · rfl
    · split
      · rfl
      · omega

/-- Witness for C2 at concrete inputs: a valid creation succeeds and an
empty topic is rejected. -/
theorem createPoll_validation_witness :
    createPoll "Team Lunch" 3 "admin" = .ok (initPoll "Team Lunch" 3 "admin") ∧
    createPoll "" 3 "admin" = .error .validationError :=
  ⟨((createPoll_validation "Team Lunch" 3 "admin").1 (by decide)).1,
   (createPoll_validation "" 3 "admin").2 (by decide)⟩

/-- Claim C6: in every state, a caller other than adminIdentity invoking
startVote or closePoll fails with AuthError and produces no state change. -/
theorem admin_only_auth (s : PollState) (i : String) (h : i ≠ s.adminIdentity) :
    apply (.startVote i) s = (s, some .authError) ∧
    apply (.closePoll i) s = (s, some .authError) := by
  constructor <;> simp only [apply] <;> rw [if_pos h]

/-- Witness for C6 at a concrete poll and a concrete non-admin identity. -/
theorem admin_only_auth_witness :
    apply (.startVote "mallory") (initPoll "t" 3 "admin") =
      (initPoll "t" 3 "admin", some .authError) ∧
    apply (.closePoll "mallory") (initPoll "t" 3 "admin") =
      (initPoll "t" 3 "admin", some .authError) :=
  admin_only_auth (initPoll "t" 3 "admin") "mallory" (by decide)

/-- Claim C5: in the Voting state, a ballot longer than the votesPerVoter
cap, containing a duplicate id, or referencing an unknown nomination id is
rejected with ValidationError, and the whole state (in particular the
rankings mapping) is left unchanged. -/
theorem vote_validation (s : PollState) (ballot : List String) (i : String)
    (hs : s.hasStarted = true) (hc : s.isClosed = false)
    (hbad : s.votesPerVoter < ballot.length ∨ ¬ballot.Nodup ∨
      ∃ nid ∈ ballot, nid ∉ nominationIds s) :
    apply (.vote ballot i) s = (s, some .validationError) := by
  have hb : validBallot s ballot = false := by
    simp only [validBallot, decide_eq_false_iff_not]
    rintro ⟨h1, h2, h3⟩
    rcases hbad with h | h | ⟨nid, hmem, hnot⟩
    · omega
    · exact h h2
    · exact hnot (h3 nid hmem)
  simp only [apply, hs, hc, hb]
  simp

/-- Witness for C5: a duplicate-id ballot on a concrete voting poll is
rejected with ValidationError. -/
theorem vote_validation_witness :
    apply (.vote ["nom0", "nom0"] "u") sampleVoting =
      (sampleVoting, some .validationError) :=
  vote_validation sampleVoting ["nom0", "nom0"] "u" (by decide) (by decide)
    (Or.inr (Or.inl (by decide)))

/-- Claim C4: nominate fails with StateError whenever hasStarted is true,
vote fails with StateError whenever hasStarted is false, and a second
closePoll after a successful one fails with StateError, leaving the results
(and the whole state) untouched rather than recomputing them. -/
theorem lifecycle_state_errors (s s2 : PollState) (t i a : String) (ballot : List String) :
    (s.hasStarted = true → apply (.nominate t i) s = (s, some .stateError)) ∧
    (s.hasStarted = false → apply (.vote ballot i) s = (s, some .stateError)) ∧
    (apply (.closePoll a) s = (s2, none) →
      apply (.closePoll a) s2 = (s2, some .stateError) ∧
      (apply (.closePoll a) s2).1.results = s2.results) := by
  refine ⟨?_, ?_, ?_⟩
  · intro h
    simp [apply, h]
  · intro h
    simp [apply, h]
  · intro h
    simp only [apply] at h ⊢
    split at h
    · simp at h
    · split at h
      · simp at h
      · rename_i hna hg
        rw [Prod.mk.injEq] at h
        obtain ⟨h1, -⟩ := h
        rw [← h1]
        rw [if_neg (by simpa using hna), if_pos (Or.inr rfl)]
        exact ⟨rfl, rfl⟩

/-- Witness for C4 on concrete states: nominate after start, vote before
start, and a second closePoll all fail with StateError. -/
theorem lifecycle_state_errors_witness :
    apply (.nominate "Tacos" "u") sampleVoting = (sampleVoting, some .stateError) ∧
    apply (.vote ["nom0"] "u") samplePoll = (samplePoll, some .stateError) ∧
    apply (.closePoll "admin") sampleClosed = (sampleClosed, some .stateError) := by
  refine ⟨?_, ?_, ?_⟩
  · exact (lifecycle_state_errors sampleVoting sampleClosed "Tacos" "u" "admin" []).1 (by decide)
  · exact (lifecycle_state_errors samplePoll sampleClosed "t" "u" "admin" ["nom0"]).2.1 (by decide)
  · exact ((lifecycle_state_errors sampleVoting sampleClosed "t" "u" "admin" []).2.2 (by decide)).1

/-- Claim C9 counterexample: when every one of the bounded lookups returns
an empty list, handleCreatePoll silently proceeds with the current chain id
as substitute data, while a spec-following caller would fail explicitly with
a consistency timeout. -/
theorem fetchNewPollId_silent_fallback :
    fetchNewPollId (fun _ => []) "currentChain" = "currentChain" ∧
    fetchNewPollIdSpec (fun _ => []) = .error .consistencyTimeout :=
  ⟨rfl, rfl⟩

/-- Claim C9 as amended: the caller retries a bounded number of times
(maxRetries = 10); when the address has not appeared on any attempt it falls
back to the current chain id of the client and proceeds with that substitute
value instead of failing explicitly. -/
theorem fetchNewPollId_fallback (responses : Nat → List String) (c : String)
    (h : ∀ i, i < maxRetries → responses i = []) :
    fetchNewPollId responses c = c := by
  have loop : ∀ fuel i, (∀ j, i ≤ j → j < i + fuel → responses j = []) →
      pollIdLoop responses i fuel = "" := by
    intro fuel
    induction fuel with
    | zero => intro i _; rfl
    | succ f ih =>
      intro i hj
      simp only [pollIdLoop]
      rw [hj i le_rfl (by omega)]
      simpa using ih (i + 1) (fun j h1 h2 => hj j (by omega) (by omega))
  simp only [fetchNewPollId]
  rw [loop maxRetries 0 (fun j _ h2 => h j (by simpa using h2))]
  rfl

/-- Witness for the amended C9 at a concrete all-empty response stream. -/
theorem fetchNewPollId_fallback_witness :
    fetchNewPollId (fun _ => []) "chain0" = "chain0" :=
  fetchNewPollId_fallback (fun _ => []) "chain0" (fun _ _ => rfl)

/-- Claim C10: every mutation the client issues carries an explicit owner
identity among its GraphQL variables, and the core authorizes solely by the
adminIdentity equality check — startVote and closePoll report AuthError
exactly for a non-admin caller, and no other operation ever reports
AuthError. -/
theorem explicit_owner_identity :
    (∀ topic v owner, ("owner", GqlValue.str owner) ∈ createPollVars topic v owner) ∧
    (∀ name owner, ("owner", GqlValue.str owner) ∈ joinVars name owner) ∧
    (∀ text owner, ("owner", GqlValue.str owner) ∈ nominateVars text owner) ∧
    (∀ rankings owner, ("owner", GqlValue.str owner) ∈ voteVars rankings owner) ∧
    (∀ owner, ("owner", GqlValue.str owner) ∈ startVoteVars owner) ∧
    (∀ owner, ("owner", GqlValue.str owner) ∈ closePollVars owner) ∧
    (∀ s i, (apply (.startVote i) s).2 = some .authError ↔ i ≠ s.adminIdentity) ∧
    (∀ s i, (apply (.closePoll i) s).2 = some .authError ↔ i ≠ s.adminIdentity) ∧
    (∀ s n i, (apply (.join n i) s).2 ≠ some .authError) ∧
    (∀ s t i, (apply (.nominate t i) s).2 ≠ some .authError) ∧
    (∀ s b i, (apply (.vote b i) s).2 ≠ some .authError) := by
  refine ⟨?_, ?_, ?_, ?_, ?_, ?_, ?_, ?_, ?_, ?_, ?_⟩
  · intro topic v owner; simp [createPollVars]
  · intro name owner; simp [joinVars]
  · intro text owner; simp [nominateVars]
  · intro rankings owner; simp [voteVars]
  · intro owner; simp [startVoteVars]
  · intro owner; simp [closePollVars]
  · intro s i
    simp only [apply]
    by_cases h : i ≠ s.adminIdentity
    · rw [if_pos h]; simpa using h
    · rw [if_neg h]
      constructor
      · intro hcon
        split at hcon <;> simp_all
      · intro hcon; exact absurd hcon h
  · intro s i
    simp only [apply]
    by_cases h : i ≠ s.adminIdentity
    · rw [if_pos h]; simpa using h
    · rw [if_neg h]
      constructor
      · intro hcon
        split at hcon <;> simp_all
      · intro hcon; exact absurd hcon h
  · intro s n i
    simp only [apply]
    split
    · simp
    · split <;> simp
  · intro s t i
    simp only [apply]
    split
    · simp
    · split <;> simp
  · intro s b i
    simp only [apply]
    split
    · simp
    · split <;> simp

end MealVoting

namespace MealVoting

/-- Folding the ballots over any score table adds, entrywise, the sum of the
per-ballot contributions for the key of that entry. -/
theorem foldl_addBallot (v : Nat) (rks : List (String × List String)) :
    ∀ scores : List (String × Nat),
      rks.foldl (fun sc p => addBallot v p.2 sc) scores =
        scores.map (fun q =>
          (q.1, q.2 + (rks.map (fun p => ballotContribution v p.2 q.1)).sum)) := by
  induction rks with
  | nil => intro scores; simp
  | cons b rest ih =>
    intro scores
    simp only [List.foldl_cons, List.map_cons, List.sum_cons]
    rw [ih]
    simp only [addBallot, List.map_map]
    congr 1
    funext q
    simp [Nat.add_assoc]

/-- Looking up a nomination id present in the score table built over the
nominations returns the summed contribution for that id. -/
theorem lookupScore_scores (rks : List (String × List String)) (v : Nat) (nid : String) :
    ∀ noms : List Nomination, nid ∈ noms.map Nomination.nominationId →
      lookupScore (noms.map (fun n => (n.nominationId,
        (rks.map (fun p => ballotContribution v p.2 n.nominationId)).sum))) nid =
      some ((rks.map (fun p => ballotContribution v p.2 nid)).sum) := by
  intro noms
  induction noms with
  | nil => simp
  | cons n rest ih =>
    intro h
    simp only [List.map_cons, lookupScore]
    by_cases he : n.nominationId = nid
    · rw [if_pos he, he]
    · rw [if_neg he]
      apply ih
      rcases List.mem_cons.mp h with h1 | h1
      · exact absurd h1.symm he
      · exact h1

/-- The closed form of the tally: one row per nomination in insertion order,
scored by the sum of its per-ballot contributions. -/
theorem tally_eq_sum (noms : List Nomination) (rks : List (String × List String)) (v : Nat) :
    tally noms rks v = noms.map (fun n =>
      { nominationId := n.nominationId, nominationText := n.text,
        score := (rks.map (fun p => ballotContribution v p.2 n.nominationId)).sum }) := by
  simp only [tally, emptyScores]
  rw [foldl_addBallot]
  simp only [List.map_map, Function.comp_def, Nat.zero_add]
  apply List.map_congr_left
  intro n hn
  rw [lookupScore_scores rks v n.nominationId noms
    (List.mem_map.mpr ⟨n, hn, rfl⟩)]
  rfl

/-- Claim C1: for ballots within the votesPerVoter cap, the tally scores
each nomination by the sum over all ballots of L - 1 - r points, with L the
effective ballot length and r the zero-indexed rank, 0 from ballots it is
absent from; in particular the three demo nominations with the single demo
ballot score Pizza 2, Sushi 1, Burgers 0. -/
theorem tally_positional_scores (noms : List Nomination)
    (rks : List (String × List String)) (v : Nat)
    (hlen : ∀ p ∈ rks, (p : String × List String).2.length ≤ v) :
    tally noms rks v = noms.map (fun n =>
      { nominationId := n.nominationId, nominationText := n.text,
        score := (rks.map (fun p =>
          match rankOf p.2 n.nominationId with
          | some r => p.2.length - 1 - r
          | none => 0)).sum }) ∧
    tally demoNominations demoRankings 3 =
      [⟨"nom0", "Pizza", 2⟩, ⟨"nom1", "Sushi", 1⟩, ⟨"nom2", "Burgers", 0⟩] := by
  constructor
  · rw [tally_eq_sum]
    apply List.map_congr_left
    intro n hn
    congr 1
    apply congrArg
    apply List.map_congr_left
    intro p hp
    simp only [ballotContribution, List.take_of_length_le (hlen p hp)]
  · decide

/-- Witness for C1: the theorem applied to the concrete scenario of the
end-to-end script. -/
theorem tally_positional_scores_witness :
    tally demoNominations demoRankings 3 =
      [⟨"nom0", "Pizza", 2⟩, ⟨"nom1", "Sushi", 1⟩, ⟨"nom2", "Burgers", 0⟩] :=
  (tally_positional_scores demoNominations demoRankings 3 (by decide)).2

/-- A successful closePoll sets isClosed and stores the tally, changing
nothing else. -/
theorem closePoll_ok (s : PollState) (i : String) (s2 : PollState)
    (h : apply (.closePoll i) s = (s2, none)) :
    s2 = { s with
      isClosed := true
      results := tally s.nominations s.rankings s.votesPerVoter } := by
  simp only [apply] at h
  split at h
  · simp at h
  · split at h
    · simp at h
    · exact ((Prod.mk.injEq _ _ _ _).mp h).1.symm

/-- Looking up any key in the freshly seeded score table yields 0 after the
default. -/
theorem lookupScore_emptyScores (k : String) :
    ∀ noms : List Nomination, (lookupScore (emptyScores noms) k).getD 0 = 0 := by
  intro noms
  induction noms with
  | nil => rfl
  | cons n rest ih =>
    simp only [emptyScores, List.map_cons, lookupScore]
    by_cases he : n.nominationId = k
    · rw [if_pos he]; rfl
    · rw [if_neg he]; exact ih

/-- Claim C7: when closePoll runs the tally, the results hold exactly the
full nomination set in insertion order (ids and labels), and with zero
ballots cast every nomination appears with score 0. -/
theorem closePoll_results (s : PollState) (i : String) (s2 : PollState)
    (h : apply (.closePoll i) s = (s2, none)) :
    s2.results.map ResultEntry.nominationId = s.nominations.map Nomination.nominationId ∧
    s2.results.map ResultEntry.nominationText = s.nominations.map Nomination.text ∧
    (s.rankings = [] → s2.results.map ResultEntry.score = s.nominations.map (fun _ => 0)) := by
  rw [closePoll_ok s i s2 h]
  refine ⟨?_, ?_, ?_⟩
  · simp [tally, List.map_map]
  · simp [tally, List.map_map]
  · intro hr
    simp only [hr, tally, List.foldl_nil, List.map_map, Function.comp_def]
    apply List.map_congr_left
    intro n hn
    exact lookupScore_emptyScores n.nominationId s.nominations

/-- Witness for C7: closing a concrete poll holding three nominations and no
ballots yields all three rows, in order, each with score 0. -/
theorem closePoll_results_witness :
    sampleClosedNoBallots.results.map ResultEntry.nominationId =
      sampleVotingNoBallots.nominations.map Nomination.nominationId ∧
    sampleClosedNoBallots.results.map ResultEntry.nominationText =
      sampleVotingNoBallots.nominations.map Nomination.text ∧
    (sampleVotingNoBallots.rankings = [] →
      sampleClosedNoBallots.results.map ResultEntry.score =
        sampleVotingNoBallots.nominations.map (fun _ => 0)) :=
  closePoll_results sampleVotingNoBallots "admin" sampleClosedNoBallots (by decide)

end MealVoting

namespace MealVoting

/-- Processing one registration message keeps every per-creator list
duplicate-free. -/
theorem registerPoll_inv (c a : String) :
    ∀ fs, factoryInv fs → factoryInv (registerPoll fs c a) := by
  intro fs
  induction fs with
  | nil =>
    intro _ p hp
    simp only [registerPoll, List.mem_singleton] at hp
    subst hp
    simp
  | cons q rest ih =>
    intro hinv p hp
    simp only [registerPoll] at hp
    by_cases hq : q.1 = c
    · rw [if_pos hq] at hp
      by_cases hm : a ∈ q.2
      · rw [if_pos hm] at hp
        exact hinv p hp
      · rw [if_neg hm] at hp
        rcases List.mem_cons.mp hp with h1 | h1
        · subst h1
          have hnd : q.2.Nodup := hinv q (List.mem_cons_self _ _)
          simp [List.nodup_append, hnd, hm]
        · exact hinv p (List.mem_cons_of_mem _ h1)
    · rw [if_neg hq] at hp
      rcases List.mem_cons.mp hp with h1 | h1
      · subst h1
        exact hinv p (List.mem_cons_self _ _)
      · exact ih (fun r hr => hinv r (List.mem_cons_of_mem _ hr)) p h1

/-- A registration message for one creator does not touch the list of any
other identity. -/
theorem registerPoll_other (c a k : String) (hk : k ≠ c) :
    ∀ fs, lookupPolls (registerPoll fs c a) k = lookupPolls fs k := by
  intro fs
  induction fs with
  | nil =>
    simp only [registerPoll, lookupPolls]
    rw [if_neg (by simpa using Ne.symm hk)]
  | cons q rest ih =>
    simp only [registerPoll]
    by_cases hq : q.1 = c
    · rw [if_pos hq]
      by_cases hm : a ∈ q.2
      · rw [if_pos hm]
      · rw [if_neg hm]
        simp only [lookupPolls]
        rw [if_neg (by rw [hq]; simpa using Ne.symm hk),
          if_neg (by rw [hq]; simpa using Ne.symm hk)]
    · rw [if_neg hq]
      simp only [lookupPolls]
      by_cases hqk : q.1 = k
      · rw [if_pos hqk, if_pos hqk]
      · rw [if_neg hqk, if_neg hqk]
        exact ih

/-- Processing any message sequence preserves the duplicate-freedom
invariant of the factory index. -/
theorem foldl_register_inv (msgs : List (String × String)) :
    ∀ fs, factoryInv fs →
      factoryInv (msgs.foldl (fun fs m => registerPoll fs m.1 m.2) fs) := by
  induction msgs with
  | nil => intro fs h; exact h
  | cons m rest ih =>
    intro fs h
    exact ih _ (registerPoll_inv m.1 m.2 fs h)

/-- An identity that creates nothing in a message sequence keeps its
original lookup result. -/
theorem foldl_register_other (c : String) :
    ∀ msgs : List (String × String), c ∉ msgs.map Prod.fst →
      ∀ fs, lookupPolls (msgs.foldl (fun fs m => registerPoll fs m.1 m.2) fs) c =
        lookupPolls fs c := by
  intro msgs
  induction msgs with
  | nil => intro _ fs; rfl
  | cons m rest ih =>
    intro h fs
    simp only [List.map_cons, List.mem_cons] at h
    push_neg at h
    rw [List.foldl_cons, ih h.2, registerPoll_other m.1 m.2 c h.1]

/-- A successful lookup names an entry of the index. -/
theorem lookupPolls_mem (k : String) (l : List String) :
    ∀ fs, lookupPolls fs k = some l → (k, l) ∈ fs := by
  intro fs
  induction fs with
  | nil => intro h; cases h
  | cons q rest ih =>
    intro h
    simp only [lookupPolls] at h
    by_cases hq : q.1 = k
    · rw [if_pos hq] at h
      have : q = (k, l) := by
        cases q
        simp_all
      rw [← this]
      exact List.mem_cons_self _ _
    · rw [if_neg hq] at h
      exact List.mem_cons_of_mem _ (ih h)

/-- Claim C8: after any sequence of registration messages (redeliveries
included), the createdPolls list of every identity holds no duplicate
partition address, and an identity that registered nothing gets the empty
sequence, never an error. -/
theorem createdPolls_unique (msgs : List (String × String)) (c : String) :
    (createdPolls (buildFactory msgs) c).Nodup ∧
    (c ∉ msgs.map Prod.fst → createdPolls (buildFactory msgs) c = []) := by
  constructor
  · have hinv : factoryInv (buildFactory msgs) :=
      foldl_register_inv msgs [] (fun p hp => absurd hp (List.not_mem_nil p))
    unfold createdPolls
    cases hl : lookupPolls (buildFactory msgs) c with
    | none => simp
    | some l => simpa using hinv _ (lookupPolls_mem c l _ hl)
  · intro h
    unfold createdPolls buildFactory
    rw [foldl_register_other c msgs h []]
    rfl

/-- Witness for C8: a duplicated registration leaves no duplicate for alice,
and bob (who registered nothing) reads an empty list. -/
theorem createdPolls_unique_witness :
    (createdPolls (buildFactory demoRegistrations) "alice").Nodup ∧
    createdPolls (buildFactory demoRegistrations) "bob" = [] :=
  ⟨(createdPolls_unique demoRegistrations "alice").1,
   (createdPolls_unique demoRegistrations "bob").2 (by decide)⟩

/-- hasStarted never flips back: every operation preserves it once true. -/
theorem hasStarted_mono (op : Op) (s : PollState) (h : s.hasStarted = true) :
    (apply op s).1.hasStarted = true := by
  cases op <;> simp only [apply] <;> (repeat' split) <;> simp_all

/-- isClosed never flips back: every operation preserves it once true. -/
theorem isClosed_mono (op : Op) (s : PollState) (h : s.isClosed = true) :
    (apply op s).1.isClosed = true := by
  cases op <;> simp only [apply] <;> (repeat' split) <;> simp_all

/-- Only startVote can change the hasStarted flag. -/
theorem started_only_startVote (op : Op) (s : PollState)
    (h : (apply op s).1.hasStarted ≠ s.hasStarted) : ∃ i, op = Op.startVote i := by
  cases op with
  | startVote i => exact ⟨i, rfl⟩
  | join name ident => simp only [apply] at h; (repeat' split at h) <;> simp_all
  | nominate text ident => simp only [apply] at h; (repeat' split at h) <;> simp_all
  | vote ballot ident => simp only [apply] at h; (repeat' split at h) <;> simp_all
  | closePoll ident => simp only [apply] at h; (repeat' split at h) <;> simp_all

/-- Only closePoll can change the isClosed flag. -/
theorem closed_only_closePoll (op : Op) (s : PollState)
    (h : (apply op s).1.isClosed ≠ s.isClosed) : ∃ i, op = Op.closePoll i := by
  cases op with
  | closePoll i => exact ⟨i, rfl⟩
  | join name ident => simp only [apply] at h; (repeat' split at h) <;> simp_all
  | nominate text ident => simp only [apply] at h; (repeat' split at h) <;> simp_all
  | vote ballot ident => simp only [apply] at h; (repeat' split at h) <;> simp_all
  | startVote ident => simp only [apply] at h; (repeat' split at h) <;> simp_all

/-- In a closed (and started) poll, no operation changes the state at all. -/
theorem closed_frame_state (op : Op) (s : PollState) (hc : s.isClosed = true)
    (hs : s.hasStarted = true) : (apply op s).1 = s := by
  cases op <;> simp only [apply] <;> (repeat' split) <;> simp_all

/-- Along reachable states, isClosed implies hasStarted. -/
theorem closed_imp_started (s : PollState) (h : Reachable s) :
    s.isClosed = true → s.hasStarted = true := by
  induction h with
  | created t v c s h =>
    rw [createPoll_ok t v c s h]
    intro h2
    simp [initPoll] at h2
  | step s op hr ih =>
    intro h2
    by_cases hc : s.isClosed = true
    · have hs := ih hc
      rw [closed_frame_state op s hc hs]
      exact hs
    · cases op <;> simp only [apply] at h2 ⊢ <;> (repeat' split at h2) <;> simp_all

/-- Claim C3: on every reachable poll state, isClosed implies hasStarted;
both flags are monotonic and flip only via startVote and closePoll
respectively (so the lifecycle never moves backward); and once the poll is
closed, no operation mutates the state — nominations, rankings and
participants included. -/
theorem poll_lifecycle_invariants (s : PollState) (h : Reachable s) :
    (s.isClosed = true → s.hasStarted = true) ∧
    (∀ op : Op,
      (s.hasStarted = true → (apply op s).1.hasStarted = true) ∧
      (s.isClosed = true → (apply op s).1.isClosed = true) ∧
      ((apply op s).1.hasStarted ≠ s.hasStarted → ∃ i, op = Op.startVote i) ∧
      ((apply op s).1.isClosed ≠ s.isClosed → ∃ i, op = Op.closePoll i) ∧
      (s.isClosed = true → (apply op s).1 = s)) :=
  ⟨closed_imp_started s h, fun op =>
    ⟨hasStarted_mono op s, isClosed_mono op s,
     started_only_startVote op s, closed_only_closePoll op s,
     fun hc => closed_frame_state op s hc (closed_imp_started s h hc)⟩⟩

/-- The concrete closed sample poll is reachable: create, nominate, start,
close. -/
theorem sampleClosed_reachable : Reachable sampleClosed :=
  Reachable.step sampleVoting (Op.closePoll "admin")
    (Reachable.step sampleNominated (Op.startVote "admin")
      (Reachable.step samplePoll (Op.nominate "Pizza" "admin")
        (Reachable.created "Team Lunch" 3 "admin" samplePoll rfl)))

/-- Witness for C3 on the concrete closed sample poll: it has started, and a
join attempt after closure changes nothing. -/
theorem poll_lifecycle_invariants_witness :
    sampleClosed.hasStarted = true ∧
    (apply (Op.join "Bob" "u") sampleClosed).1 = sampleClosed :=
  ⟨(poll_lifecycle_invariants sampleClosed sampleClosed_reachable).1 (by decide),
   ((poll_lifecycle_invariants sampleClosed sampleClosed_reachable).2
      (Op.join "Bob" "u")).2.2.2.2 (by decide)⟩

end MealVoting
